import Mathlib

/-!
Shallow embedding of the FERC Form 1 calculation-forest reconciliation engine
from src/pudl/output/ferc1.py, together with theorems settling the frozen
claims about it. Python floats are modelled as rationals, pandas nullable
values as Option, and exceptions (assert / raise) as Except errors.
-/

namespace Pudl

/-- The source table and XBRL factoid identifying a node in a calculation tree
(class NodeId, src/pudl/output/ferc1.py lines 1027-1038). -/
structure NodeId where
  source_table : String
  xbrl_factoid : String
deriving DecidableEq, Repr

/-- One component of a calculation, as parsed from the serialized
calculations column: a name, a signed weight, and the list of source tables
it is drawn from. -/
structure CalcComp where
  name : String
  weight : ℚ
  source_tables : List String
deriving DecidableEq, Repr

/-! ## MetadataExploder (lines 962-1024) and in_explosion_tables (1594-1605) -/

/-- Embeds in_explosion_tables (lines 1594-1605): the Python body is
any of a list comprehension keeping True for each tbl of source_tables
that is in in_explosion_table_names, i.e. true when at least one of the
source tables is among the explosion tables. -/
def in_explosion_tables (source_tables in_explosion_table_names : List String) : Bool :=
  source_tables.any (fun tbl => decide (tbl ∈ in_explosion_table_names))

/-- A row of the concatenated exploded metadata (output of MetadataExploder.boom),
with the calculations column already parsed into components. -/
structure MetaRow where
  table_name : String
  xbrl_factoid : String
  xbrl_factoid_original : String
  calculations : List CalcComp
  row_type_xbrl : String
  intra_table_calc_flag : Bool
deriving DecidableEq, Repr

/-- Embeds convert_calculations_into_calculation_component_table
(lines 1608-1625) restricted to what the exploder consumes: one entry per
calculation component, paired with its parent factoid name. -/
def calc_components (meta : List MetaRow) : List (String × CalcComp) :=
  meta.flatMap (fun row => row.calculations.map (fun c => (row.xbrl_factoid, c)))

/-- Embeds the derivation of not_in_explosion_xbrl_factoids inside
MetadataExploder.redefine_calculations_with_components_out_of_explosion
(lines 1006-1011): the parent factoids of every component whose
in_explosion flag is false. -/
def not_in_explosion_xbrl_factoids (table_names : List String)
    (meta : List MetaRow) : List String :=
  ((calc_components meta).filter
    (fun p => in_explosion_tables p.2.source_tables table_names = false)).map (·.1)

/-- Embeds MetadataExploder.redefine_calculations_with_components_out_of_explosion
(lines 999-1024): any metadata row whose xbrl_factoid is among the
not-in-explosion factoids gets its calculations set to the empty list and its
row_type_xbrl set to reported_value. -/
def redefine_calculations_with_components_out_of_explosion
    (table_names : List String) (meta : List MetaRow) : List MetaRow :=
  let bad := not_in_explosion_xbrl_factoids table_names meta
  meta.map (fun row =>
    if row.xbrl_factoid ∈ bad then
      { row with calculations := [], row_type_xbrl := "reported_value" }
    else row)

/-! ## Exploder.value_col (lines 1115-1131) -/

/-- Embeds Exploder.value_col (lines 1115-1131). The per-table
column_to_check parameters are collected into value_cols; if the set of
distinct names does not have exactly one element a ValueError is raised,
otherwise the single name is returned. -/
def value_col (value_cols : List String) : Except String String :=
  match value_cols.dedup with
  | [c] => Except.ok c
  | _ => Except.error
      "Exploding FERC tables requires tables with only one value column."

/-! ## Seed validation (XbrlCalculationForestFerc1 validators, lines 1778-1792) -/

/-- Embeds the seeds_not_empty validator (lines 1778-1784): an empty seed
list is replaced by every node in the exploded_meta index. -/
def seeds_not_empty (exploded_meta_index : List NodeId)
    (seeds : List NodeId) : List NodeId :=
  if seeds = [] then exploded_meta_index else seeds

/-- Embeds the seeds_within_bounds validator (lines 1786-1792): seeds absent
from the exploded_meta index are collected and, if any exist, a ValueError
naming them is raised. -/
def seeds_within_bounds (exploded_meta_index : List NodeId)
    (seeds : List NodeId) : Except (List NodeId) (List NodeId) :=
  let bad_seeds := seeds.filter (fun s => decide (s ∉ exploded_meta_index))
  if bad_seeds ≠ [] then Except.error bad_seeds else Except.ok seeds

/-- The two seed validators applied in pydantic declaration order:
seeds_not_empty (always runs) and then seeds_within_bounds. This happens at
model construction, before the lazily computed digraph properties are built. -/
def validate_seeds (exploded_meta_index : List NodeId)
    (seeds : List NodeId) : Except (List NodeId) (List NodeId) :=
  seeds_within_bounds exploded_meta_index (seeds_not_empty exploded_meta_index seeds)

/-! ## Digraph model

The networkx DiGraph is modelled as a deduplicated edge list together with
the node attributes the engine uses: the weight attribute (set on nodes
appearing as calculation components) and xbrl_factoid_original. Node
membership, as in networkx graphs built purely by add_edge, is induced by
the edge endpoints. -/

/-- A directed graph over NodeId, with node weight attributes and
xbrl_factoid_original attributes kept as association lists. -/
structure Digraph where
  edges : List (NodeId × NodeId)
  weights : List (NodeId × ℚ)
  originals : List (NodeId × String)
deriving DecidableEq, Repr

/-- The nodes of the graph: every endpoint of an edge, deduplicated. -/
def Digraph.nodes (g : Digraph) : List NodeId :=
  (g.edges.map (·.1) ++ g.edges.map (·.2)).dedup

/-- The weight attribute of a node, when it has one. -/
def Digraph.getWeight (g : Digraph) (n : NodeId) : Option ℚ :=
  (g.weights.find? (fun p => p.1 = n)).map (·.2)

/-- networkx add_edge: adding an existing directed edge is a no-op. -/
def Digraph.addEdge (g : Digraph) (e : NodeId × NodeId) : Digraph :=
  if e ∈ g.edges then g else { g with edges := g.edges ++ [e] }

/-- networkx remove_nodes_from: drop the nodes, their incident edges and
their attributes. -/
def Digraph.removeNodes (g : Digraph) (ns : List NodeId) : Digraph :=
  { edges := g.edges.filter (fun e => e.1 ∉ ns ∧ e.2 ∉ ns),
    weights := g.weights.filter (fun p => p.1 ∉ ns),
    originals := g.originals.filter (fun p => p.1 ∉ ns) }

/-- Direct successors of a node. -/
def Digraph.succs (g : Digraph) (n : NodeId) : List NodeId :=
  (g.edges.filter (fun e => e.1 = n)).map (·.2)

/-- Direct predecessors of a node. -/
def Digraph.preds (g : Digraph) (n : NodeId) : List NodeId :=
  (g.edges.filter (fun e => e.2 = n)).map (·.1)

/-- In-degree of a node (edges are deduplicated, so this counts parents). -/
def Digraph.inDeg (g : Digraph) (n : NodeId) : Nat := (g.preds n).length

/-- Out-degree of a node. -/
def Digraph.outDeg (g : Digraph) (n : NodeId) : Nat := (g.succs n).length

/-- One breadth step of reachability: add every direct successor (under the
supplied neighbour function) of the accumulated node set. -/
def reachStep (nbrs : NodeId → List NodeId) (acc : List NodeId) : List NodeId :=
  acc ++ ((acc.flatMap nbrs).filter (fun n => decide (n ∉ acc))).dedup

/-- Iterate reachStep a fixed number of times (the fuel). -/
def reachFuel (nbrs : NodeId → List NodeId) : Nat → List NodeId → List NodeId
  | 0, acc => acc
  | k + 1, acc => reachFuel nbrs k (reachStep nbrs acc)

/-- networkx descendants: all nodes reachable from n by a nonempty path,
computed by iterating expansion as many times as there are nodes. -/
def Digraph.descendants (g : Digraph) (n : NodeId) : List NodeId :=
  reachFuel g.succs g.nodes.length (g.succs n)

/-- networkx ancestors: all nodes from which n is reachable by a nonempty
path. -/
def Digraph.ancestors (g : Digraph) (n : NodeId) : List NodeId :=
  reachFuel g.preds g.nodes.length (g.preds n)

/-- The property the spec calls the forest invariant: every node has at most
one parent and no node lies on a directed cycle. -/
def Digraph.IsForestLike (g : Digraph) : Prop :=
  (∀ n ∈ g.nodes, g.inDeg n ≤ 1) ∧ ∀ n ∈ g.nodes, n ∉ g.descendants n

instance (g : Digraph) : Decidable g.IsForestLike := by
  unfold Digraph.IsForestLike; infer_instance

/-! ## Graph construction: exploded_meta_to_digraph (lines 1794-1859) -/

/-- Embeds the weight-attribute bookkeeping for a calculation component
node inside exploded_meta_to_digraph (lines 1828-1841). The first weight
seen is stored (Python truthiness: a stored weight of 0.0 counts as absent
and is overwritten). On a conflicting second weight the code logs that it is
using a weight of -1.0 and asserts the product of the weights is -1.0, but
the line attrs to_node weight == -1.0 is a comparison rather than an
assignment, so the stored weight is left unchanged. -/
def record_weight (current : Option ℚ) (w : ℚ) : Except String (Option ℚ) :=
  match current with
  | none => Except.ok (some w)
  | some w0 =>
    if w0 = 0 then Except.ok (some w)
    else if w0 = w then Except.ok (some w0)
    else if w0 * w = -1 then Except.ok (some w0)
    else Except.error "AssertionError: weight conflict is not an exact-negative pair"

/-- Fold record_weight over the successive weight assertions made for one
component node during graph construction. -/
def record_weights (ws : List ℚ) : Except String (Option ℚ) :=
  ws.foldlM record_weight none

/-- Embeds the xbrl_factoid_original consistency assertion in
exploded_meta_to_digraph (lines 1811-1817): the first value seen is stored
and later rows referencing the same node must agree (Python truthiness: an
empty stored string counts as absent and is overwritten). -/
def record_original (g : Digraph) (n : NodeId) (orig : String) : Except String Digraph :=
  match (g.originals.find? (fun p => p.1 = n)).map (·.2) with
  | none => Except.ok { g with originals := g.originals ++ [(n, orig)] }
  | some o =>
    if o = "" then
      Except.ok { g with originals :=
        (g.originals.filter (fun p => p.1 ≠ n)) ++ [(n, orig)] }
    else if o = orig then Except.ok g
    else Except.error "AssertionError: xbrl_factoid_original mismatch"

/-- Apply record_weight to the stored weight attribute of a node. -/
def set_node_weight (g : Digraph) (n : NodeId) (w : ℚ) : Except String Digraph := do
  let w' ← record_weight (g.getWeight n) w
  Except.ok { g with weights :=
    (g.weights.filter (fun p => p.1 ≠ n)) ++ [(n, w'.getD w)] }

/-- Process one calculation component of a metadata row inside
exploded_meta_to_digraph (lines 1823-1846): assert the component has exactly
one source table, record the component node's weight attribute, and add the
edge from the calculated factoid to the component. -/
def add_calc_edge (from_node : NodeId) (g : Digraph) (c : CalcComp) :
    Except String Digraph :=
  match c.source_tables with
  | [st] => do
    let to_node : NodeId := ⟨st, c.name⟩
    let g ← set_node_weight g to_node c.weight
    Except.ok (g.addEdge (from_node, to_node))
  | _ => Except.error "AssertionError: len(source_tables) == 1"

/-- Process one row of exploded metadata inside exploded_meta_to_digraph
(lines 1807-1846): record the row node's xbrl_factoid_original and add one
edge per calculation component. -/
def add_meta_row (g : Digraph) (row : MetaRow) : Except String Digraph := do
  let from_node : NodeId := ⟨row.table_name, row.xbrl_factoid⟩
  let g ← record_original g from_node row.xbrl_factoid_original
  row.calculations.foldlM (add_calc_edge from_node) g

/-- The hard-coded known-bad nodes removed after construction
(lines 1853-1857). -/
def bad_nodes : List NodeId :=
  [⟨"balance_sheet_assets_ferc1", "special_funds_all"⟩,
   ⟨"balance_sheet_assets_ferc1", "nuclear_fuel"⟩]

/-- Embeds XbrlCalculationForestFerc1.exploded_meta_to_digraph
(lines 1794-1859): fold every metadata row into the graph, then remove the
known-bad nodes. Tag attributes, which no settled claim touches, are
omitted. -/
def exploded_meta_to_digraph (meta : List MetaRow) : Except String Digraph := do
  let g ← meta.foldlM add_meta_row ⟨[], [], []⟩
  Except.ok (g.removeNodes bad_nodes)

/-! ## ForestPruner: passthroughs (lines 2006-2033) and forest (1899-1936) -/

/-- Embeds XbrlCalculationForestFerc1.passthroughs (lines 2006-2033): nodes
of the seeded digraph with in-degree exactly 1 and out-degree exactly 2 such
that one of the two successors is the node's own correction, i.e. shares the
node's source table and has the node's factoid with the suffix _correction
appended. -/
def passthroughs (g : Digraph) : List NodeId :=
  g.nodes.filter (fun n =>
    g.inDeg n = 1 ∧ g.outDeg n = 2 ∧
    (g.succs n).any (fun child =>
      n.source_table = child.source_table ∧
      child.xbrl_factoid = n.xbrl_factoid ++ "_correction"))

/-- Embeds one iteration of the pruning loop in
XbrlCalculationForestFerc1.forest (lines 1910-1926): assert the node has one
predecessor and two successors and exactly one successor whose factoid does
not end in _correction, then add a direct edge from the parent to that
child. The source calls forest.remove_nodes_from(successors) here, but the
successors iterator has already been exhausted by the preceding
len(list(successors)) assertion, so no node is removed. -/
def elide_passthrough (g : Digraph) (node : NodeId) : Except String Digraph :=
  match g.preds node with
  | [parent] =>
    if (g.succs node).length = 2 then
      match (g.succs node).filter
          (fun n => !(n.xbrl_factoid.endsWith "_correction")) with
      | [child] => Except.ok (g.addEdge (parent, child))
      | _ => Except.error "AssertionError: len(child) == 1"
    else Except.error "AssertionError: len(list(successors)) == 2"
  | _ => Except.error "AssertionError: len(parent) == 1"

/-- Embeds XbrlCalculationForestFerc1.forest (lines 1899-1936): starting
from the seeded digraph, fold the elision step over the passthrough nodes
computed on the unmutated seeded digraph. The is_forest check that follows
only logs on failure and the graph is returned regardless. -/
def forest_prune (g : Digraph) : Except String Digraph :=
  (passthroughs g).foldlM elide_passthrough g

/-- Roots of a digraph: in-degree 0 (lines 1938-1941). -/
def forest_roots (g : Digraph) : List NodeId :=
  g.nodes.filter (fun n => g.inDeg n = 0)

/-- Leaves of a digraph: out-degree 0 (lines 1958-1961). -/
def forest_leaves (g : Digraph) : List NodeId :=
  g.nodes.filter (fun n => g.outDeg n = 0)

/-! ## LeafWeightPropagator: leafy_meta (lines 2043-2119) -/

/-- Embeds the per-ancestor weight lookup in leafy_meta (lines 2092-2098):
a node with no weight attribute (Python truthiness: also a weight of 0.0) is
asserted to be a root and contributes 1.0, otherwise its stored weight is
used. -/
def propagated_node_weight (g : Digraph) (node : NodeId) : Except String ℚ :=
  match g.getWeight node with
  | some w =>
    if w = 0 then
      if node ∈ forest_roots g then Except.ok 1
      else Except.error "AssertionError: node in roots"
    else Except.ok w
  | none =>
    if node ∈ forest_roots g then Except.ok 1
    else Except.error "AssertionError: node in roots"

/-- Embeds the leaf weight accumulation in leafy_meta (lines 2084-2099): the
leaf's own weight attribute (1.0 when absent) multiplied by the weight of
every ancestor of the leaf. -/
def leaf_weight (g : Digraph) (leaf : NodeId) : Except String ℚ :=
  (g.ancestors leaf).foldlM
    (fun acc node => do
      let w ← propagated_node_weight g node
      Except.ok (acc * w))
    ((g.getWeight leaf).getD 1)

/-- One row of the leafy metadata output: the leaf node, the root it
descends from, and its propagated weight. Tag columns, which no settled
claim touches, are omitted. -/
structure LeafMeta where
  source_table : String
  xbrl_factoid : String
  root_table : String
  root_xbrl_factoid : String
  weight : ℚ
deriving DecidableEq, Repr

/-- Embeds XbrlCalculationForestFerc1.leafy_meta (lines 2043-2119) applied
to an already pruned forest graph: each leaf is mapped to the root whose
descendants contain it (the source dict comprehension keeps the last such
root; leaves under no root are dropped by the final inner merge), and is
assigned its accumulated weight. -/
def leafy_meta (g : Digraph) : Except String (List LeafMeta) :=
  (forest_leaves g).foldlM
    (fun acc leaf =>
      match ((forest_roots g).filter
          (fun r => decide (leaf ∈ g.descendants r))).getLast? with
      | none => Except.ok acc
      | some root => do
        let w ← leaf_weight g leaf
        Except.ok (acc ++
          [⟨leaf.source_table, leaf.xbrl_factoid,
            root.source_table, root.xbrl_factoid, w⟩]))
    []

/-! ## leafy_data (lines 2185-2225) -/

/-- A row of the exploded data consumed by leafy_data: its identifying
columns and the two balance value columns. -/
structure ExplodedDataRow where
  table_name : String
  xbrl_factoid : String
  starting_balance : ℚ
  ending_balance : ℚ
deriving DecidableEq, Repr

/-- One output row of leafy_data: the matched leaf metadata row together
with the two adjusted balance columns (none for left-join rows with no data
match, where the pandas values are NA). -/
structure LeafyDataRow where
  meta : LeafMeta
  starting_balance : Option ℚ
  ending_balance : Option ℚ
deriving DecidableEq, Repr

/-- Embeds XbrlCalculationForestFerc1.leafy_data (lines 2185-2225): left
join the leafy metadata onto the exploded data on (table, factoid), then
assign starting_balance := starting_balance * weight and
ending_balance := starting_balance * weight. pandas evaluates assign
keywords sequentially, so the ending_balance expression reads the already
reassigned starting_balance: the source computes ending_balance from the
raw starting balance multiplied by the weight twice. -/
def leafy_data (meta : List LeafMeta) (data : List ExplodedDataRow) :
    List LeafyDataRow :=
  meta.flatMap (fun m =>
    match data.filter (fun d =>
        d.table_name = m.source_table ∧ d.xbrl_factoid = m.xbrl_factoid) with
    | [] => [⟨m, none, none⟩]
    | matches_ => matches_.map (fun d =>
        let sb := d.starting_balance * m.weight
        let eb := sb * m.weight
        ⟨m, some sb, some eb⟩))

/-! ## InterTableCalculationReconciler:
Exploder.reconcile_intertable_calculations (lines 1339-1449) -/

/-- A row of the calculated dataframe entering reconciliation: the reported
value column and the calculated_amount column, both nullable, plus the
columns the correction records rewrite. -/
structure CalcRow where
  table_name : String
  xbrl_factoid : String
  value : Option ℚ
  calculated_amount : Option ℚ
  row_type_xbrl : String
  original_factoid : Option String
deriving DecidableEq, Repr

/-- The abs_diff column (line 1363): the absolute difference of the reported
value and the calculated amount, NA when either is NA. -/
def abs_diff (r : CalcRow) : Option ℚ :=
  match r.value, r.calculated_amount with
  | some v, some c => some |v - c|
  | _, _ => none

/-- numpy.isclose with its default tolerances rtol = 1e-05 and atol = 1e-08:
the call sites pass a = calculated_amount and b = the reported value. -/
def np_isclose (a b : ℚ) : Bool :=
  |a - b| ≤ 1 / 100000000 + (1 / 100000) * |b|

/-- The off-row predicate (lines 1371-1376): the calculated amount is not
numerically close to the reported value and abs_diff is not null (so both
values are present; numpy.isclose is false on NA inputs but those rows are
excluded by the notnull condition anyway). -/
def is_off (r : CalcRow) : Bool :=
  match r.value, r.calculated_amount with
  | some v, some c => !(np_isclose c v)
  | _, _ => false

/-- The denominator of the off ratio (line 1377): the number of rows whose
abs_diff is not null, i.e. with both a reported value and a calculated
amount. -/
def calculated_values_count (rows : List CalcRow) : Nat :=
  (rows.filter (fun r => (abs_diff r).isSome)).length

/-- The off ratio (line 1378): off rows over rows with non-null abs_diff. -/
def off_fraction (rows : List CalcRow) : ℚ :=
  ((rows.filter is_off).length : ℚ) / (calculated_values_count rows : ℚ)

/-- Embeds the construction of one correction record (lines 1393-1405): the
value becomes the reported value (null filled with 0) minus the calculated
amount, the factoid gains the _correction suffix, original_factoid keeps the
uncorrected name, and the row type becomes correction. -/
def mk_correction (r : CalcRow) : CalcRow :=
  { r with
    value := match r.calculated_amount with
      | some c => some (r.value.getD 0 - c)
      | none => none,
    original_factoid := some r.xbrl_factoid,
    xbrl_factoid := r.xbrl_factoid ++ "_correction",
    row_type_xbrl := "correction" }

/-- The failure modes of reconciliation: the AssertionError raised when the
off ratio exceeds the tolerance (carrying the observed ratio and the
tolerance that the source interpolates into the message), and the
ZeroDivisionError implicit in off_ratio when no row has a non-null
abs_diff. -/
inductive ReconcileError where
  | tolerance_exceeded (off_ratio tolerance : ℚ)
  | division_by_zero
deriving DecidableEq, Repr

/-- Embeds Exploder.reconcile_intertable_calculations (lines 1339-1449) for
input that has a calculated_amount column: compute the off rows and the off
ratio, raise when the ratio exceeds the tolerance, and otherwise append one
correction record per off row (when the ratio is zero there are no off rows
and the data is returned unchanged). -/
def reconcile_intertable_calculations (rows : List CalcRow)
    (calculation_tolerance : ℚ) : Except ReconcileError (List CalcRow) :=
  if calculated_values_count rows = 0 then
    Except.error ReconcileError.division_by_zero
  else
    let frac := off_fraction rows
    if frac > calculation_tolerance then
      Except.error (ReconcileError.tolerance_exceeded frac calculation_tolerance)
    else if frac > 0 then
      Except.ok (rows ++ (rows.filter is_off).map mk_correction)
    else Except.ok rows

/-! ## Claim-side comparison definitions -/

/-- Modelled from the claim wording for C7, for comparison with the source:
the count of rows with a non-null calculated value. The source denominator
counts rows with a non-null abs_diff instead. -/
def spec_calculated_count (rows : List CalcRow) : Nat :=
  (rows.filter (fun r => r.calculated_amount.isSome)).length

/-- Modelled from the claim wording for C7, for comparison with the source:
off rows over rows with a non-null calculated value. -/
def spec_off_fraction (rows : List CalcRow) : ℚ :=
  ((rows.filter is_off).length : ℚ) / (spec_calculated_count rows : ℚ)

/-- Modelled from the claim wording for C8, for comparison with the source:
the product over the leaf's ancestors only of each ancestor's weight, with
root nodes contributing 1.0, omitting the leaf's own weight attribute. -/
def spec_ancestor_only_weight (g : Digraph) (leaf : NodeId) : Except String ℚ :=
  (g.ancestors leaf).foldlM
    (fun acc node => do
      let w ← propagated_node_weight g node
      Except.ok (acc * w))
    1

/-! ## Concrete instances used by the claim theorems -/

/-- Seed digraph for the C1 scenario as the claim states it: edges A to B,
B to C and B to the correction sibling of C (same table as C, factoid of C
with the _correction suffix). -/
def gCclaim : Digraph :=
  ⟨[(⟨"s", "a"⟩, ⟨"t", "b"⟩), (⟨"t", "b"⟩, ⟨"t", "c"⟩),
    (⟨"t", "b"⟩, ⟨"t", "c_correction"⟩)], [], []⟩

/-- The variant of the C1 scenario that the source actually detects: the
second child of B is B's own correction sibling. -/
def gBown : Digraph :=
  ⟨[(⟨"s", "a"⟩, ⟨"t", "b"⟩), (⟨"t", "b"⟩, ⟨"t", "c"⟩),
    (⟨"t", "b"⟩, ⟨"t", "b_correction"⟩)], [], []⟩

/-- What pruning gBown produces: the direct edge from A to C is added and
nothing is removed. -/
def gBownPruned : Digraph :=
  ⟨[(⟨"s", "a"⟩, ⟨"t", "b"⟩), (⟨"t", "b"⟩, ⟨"t", "c"⟩),
    (⟨"t", "b"⟩, ⟨"t", "b_correction"⟩), (⟨"s", "a"⟩, ⟨"t", "c"⟩)], [], []⟩

/-- Exploded metadata for the C2 counterexample: a root factoid a in table
ta calculated from b in table tb, where b is calculated from c and from b's
own correction record. -/
def metaC2 : List MetaRow :=
  [⟨"ta", "a", "a", [⟨"b", 1, ["tb"]⟩], "calculated_value", false⟩,
   ⟨"tb", "b", "b", [⟨"c", 1, ["tb"]⟩, ⟨"b_correction", 1, ["tb"]⟩],
    "calculated_value", false⟩,
   ⟨"tb", "c", "c", [], "reported_value", false⟩,
   ⟨"tb", "b_correction", "b_correction", [], "correction", false⟩]

/-- The digraph the builder constructs from metaC2. -/
def gC2full : Digraph :=
  ⟨[(⟨"ta", "a"⟩, ⟨"tb", "b"⟩), (⟨"tb", "b"⟩, ⟨"tb", "c"⟩),
    (⟨"tb", "b"⟩, ⟨"tb", "b_correction"⟩)],
   [(⟨"tb", "b"⟩, 1), (⟨"tb", "c"⟩, 1), (⟨"tb", "b_correction"⟩, 1)],
   [(⟨"ta", "a"⟩, "a"), (⟨"tb", "b"⟩, "b"), (⟨"tb", "c"⟩, "c"),
    (⟨"tb", "b_correction"⟩, "b_correction")]⟩

/-- The graph produced by pruning gC2full: the edge from a to c is added
while the edge from b to c remains, so c acquires two parents. -/
def gC2pruned : Digraph :=
  ⟨[(⟨"ta", "a"⟩, ⟨"tb", "b"⟩), (⟨"tb", "b"⟩, ⟨"tb", "c"⟩),
    (⟨"tb", "b"⟩, ⟨"tb", "b_correction"⟩), (⟨"ta", "a"⟩, ⟨"tb", "c"⟩)],
   [(⟨"tb", "b"⟩, 1), (⟨"tb", "c"⟩, 1), (⟨"tb", "b_correction"⟩, 1)],
   [(⟨"ta", "a"⟩, "a"), (⟨"tb", "b"⟩, "b"), (⟨"tb", "c"⟩, "c"),
    (⟨"tb", "b_correction"⟩, "b_correction")]⟩

/-- The 3-level tree of the C8 scenario: root to mid, mid to two leaves with
weight attributes 1 and -1; mid carries weight 1 from the root's
calculation. No child of mid is mid's own correction, so pruning leaves the
tree unchanged. -/
def g8 : Digraph :=
  ⟨[(⟨"t", "root"⟩, ⟨"t", "mid"⟩), (⟨"t", "mid"⟩, ⟨"t", "leaf1"⟩),
    (⟨"t", "mid"⟩, ⟨"t", "leaf2"⟩)],
   [(⟨"t", "mid"⟩, 1), (⟨"t", "leaf1"⟩, 1), (⟨"t", "leaf2"⟩, -1)], []⟩

/-- Exploded metadata for the C5 failing input: the same component node x is
asserted with weight 1 by parent p1 and then with weight -1 by parent p2. -/
def metaC5 : List MetaRow :=
  [⟨"t", "p1", "p1", [⟨"x", 1, ["t"]⟩], "calculated_value", false⟩,
   ⟨"t", "p2", "p2", [⟨"x", -1, ["t"]⟩], "calculated_value", false⟩,
   ⟨"t", "x", "x", [], "reported_value", false⟩]

/-- The digraph the builder constructs from metaC5. -/
def gC5 : Digraph :=
  ⟨[(⟨"t", "p1"⟩, ⟨"t", "x"⟩), (⟨"t", "p2"⟩, ⟨"t", "x"⟩)],
   [(⟨"t", "x"⟩, 1)],
   [(⟨"t", "p1"⟩, "p1"), (⟨"t", "p2"⟩, "p2"), (⟨"t", "x"⟩, "x")]⟩

/-- A reconciliation row that is off: reported 100, calculated 97. -/
def rowOff : CalcRow := ⟨"t", "x", some 100, some 97, "calculated_value", none⟩

/-- A reconciliation row whose calculation matches exactly. -/
def rowClose : CalcRow := ⟨"t", "y", some 100, some 100, "calculated_value", none⟩

/-- A reconciliation row with a calculated amount but a null reported
value; its abs_diff is null. -/
def rowNullValue : CalcRow := ⟨"t", "z", none, some 5, "calculated_value", none⟩

/-- Twenty rows, one of them off: the source off ratio is 1/20. -/
def rowsC6 : List CalcRow := rowOff :: List.replicate 19 rowClose

/-- Twenty-five rows: one off, nine close, fifteen with a null reported
value. The source off ratio is 1/10 while the claim's ratio is 1/25. -/
def rowsC7 : List CalcRow :=
  rowOff :: (List.replicate 9 rowClose ++ List.replicate 15 rowNullValue)

/-! ## Claim theorems -/

/-- C1 counterexample: on the seeded digraph of the claim's scenario, where
the second child of B is the correction sibling of C, the pruner detects no
passthrough at all (detection requires the node's own correction sibling),
so pruning returns the graph unchanged: B is still present and no direct
edge from A to C exists, contrary to the claim. -/
theorem claim_C1_counterexample :
    forest_prune gCclaim = Except.ok gCclaim ∧
    (⟨"t", "b"⟩ : NodeId) ∈ gCclaim.nodes ∧
    ((⟨"s", "a"⟩ : NodeId), (⟨"t", "c"⟩ : NodeId)) ∉ gCclaim.edges := by
  exact ⟨by with_unfolding_all rfl, by decide, by decide⟩

/-- C1 amended: a node B with a single parent A and exactly two children is
elided only when one child is B's own correction sibling (same table as B,
factoid of B with the _correction suffix); the elision adds the direct edge
from A to the substantive child C but removes no nodes, because the source
passes an already exhausted successors iterator to remove_nodes_from, so B
and both children remain in the pruned graph. -/
theorem claim_C1_passthrough_elision :
    passthroughs gBown = [⟨"t", "b"⟩] ∧
    forest_prune gBown = Except.ok gBownPruned ∧
    ((⟨"s", "a"⟩ : NodeId), (⟨"t", "c"⟩ : NodeId)) ∈ gBownPruned.edges ∧
    (⟨"t", "b"⟩ : NodeId) ∈ gBownPruned.nodes ∧
    (⟨"t", "c"⟩ : NodeId) ∈ gBownPruned.nodes ∧
    (⟨"t", "b_correction"⟩ : NodeId) ∈ gBownPruned.nodes := by
  exact ⟨by decide, by with_unfolding_all rfl, by decide, by decide, by decide, by decide⟩

/-- C2 counterexample: the graph built by the calculation-graph builder from
metaC2 and then pruned contains a node with in-degree 2 (the substantive
child keeps its old parent when the direct edge is added), so the pruned
graph violates the claimed forest invariant. -/
theorem claim_C2_counterexample :
    exploded_meta_to_digraph metaC2 = Except.ok gC2full ∧
    forest_prune gC2full = Except.ok gC2pruned ∧
    (⟨"tb", "c"⟩ : NodeId) ∈ gC2pruned.nodes ∧
    gC2pruned.inDeg ⟨"tb", "c"⟩ = 2 ∧
    ¬ gC2pruned.IsForestLike := by
  exact ⟨by with_unfolding_all rfl, by with_unfolding_all rfl, by decide, by with_unfolding_all decide, by with_unfolding_all decide⟩

/-- C2 amended: the pruned graph is not always a forest (the is_forest check
only logs an error); pruning with no detected passthrough nodes is the
identity, so in that case the result satisfies the in-degree and acyclicity
invariant exactly when the input seeded digraph does. -/
theorem claim_C2_forest_invariant (g : Digraph) (h : passthroughs g = []) :
    forest_prune g = Except.ok g ∧
    (g.IsForestLike → ∃ g', forest_prune g = Except.ok g' ∧ g'.IsForestLike) := by
  have hp : forest_prune g = Except.ok g := by
    unfold forest_prune
    rw [h]
    rfl
  exact ⟨hp, fun hf => ⟨g, hp, hf⟩⟩

/-- Witness for C2 amended at the concrete 3-level tree, which has no
passthrough nodes and is a forest. -/
theorem claim_C2_forest_invariant_witness :
    passthroughs g8 = [] ∧ forest_prune g8 = Except.ok g8 ∧ g8.IsForestLike := by
  exact ⟨by decide, (claim_C2_forest_invariant g8 (by decide)).1, by with_unfolding_all decide⟩

/-- C3: leafy_data at a matched row with raw starting balance 2, raw ending
balance 3 and leaf weight -1 produces starting balance 2 * -1 = -2 as the
claim states, but ending balance 2 (the raw starting balance multiplied by
the weight twice) instead of the claimed 3 * -1 = -3: the source assigns
ending_balance from the already reweighted starting_balance column. -/
theorem claim_C3_leafy_data_bug :
    leafy_data [⟨"t", "f", "t", "r", -1⟩] [⟨"t", "f", 2, 3⟩]
      = [⟨⟨"t", "f", "t", "r", -1⟩, some (2 * (-1)), some 2⟩] ∧
    ((2 : ℚ) ≠ 3 * (-1)) := by
  exact ⟨by with_unfolding_all rfl, by norm_num⟩

/-- C5: building the graph from metaC5, where node x is asserted with weight
1 and then with the exact negative weight -1, records weight 1 for x: the
source line that the log message describes as using a weight of -1.0 is a
comparison, not an assignment, so the first seen weight is kept rather than
the most recently seen -1.0. -/
theorem claim_C5_weight_conflict_bug :
    exploded_meta_to_digraph metaC5 = Except.ok gC5 ∧
    gC5.getWeight ⟨"t", "x"⟩ = some 1 ∧
    ((1 : ℚ) ≠ -1) ∧
    record_weights [1, -1] = Except.ok (some 1) := by
  exact ⟨by with_unfolding_all rfl, by with_unfolding_all rfl, by norm_num, by with_unfolding_all rfl⟩

/-- C8 counterexample: in the 3-level tree, the leaf with weight attribute
-1 is assigned cumulative weight -1 by leafy_meta, while the product over
its ancestors only of each ancestor's weight (the claim's formula, which
omits the leaf's own weight) is 1. -/
theorem claim_C8_counterexample :
    leafy_meta g8 = Except.ok
      [⟨"t", "leaf1", "t", "root", 1⟩, ⟨"t", "leaf2", "t", "root", -1⟩] ∧
    spec_ancestor_only_weight g8 ⟨"t", "leaf2"⟩ = Except.ok 1 ∧
    ((1 : ℚ) ≠ -1) := by
  exact ⟨by with_unfolding_all rfl, by with_unfolding_all rfl, by norm_num⟩

/-- C8 amended: each leaf's cumulative weight equals the product of the edge
weights along its root-to-leaf path including the leaf's own incoming edge
weight (the leaf's weight attribute, 1.0 when absent, times each ancestor's
weight with roots contributing 1.0): in the 3-level tree the two leaves get
1 * 1 and 1 * -1, and both map to the single root. -/
theorem claim_C8_leaf_weights :
    forest_prune g8 = Except.ok g8 ∧
    leafy_meta g8 = Except.ok
      [⟨"t", "leaf1", "t", "root", 1 * 1⟩, ⟨"t", "leaf2", "t", "root", 1 * (-1)⟩] := by
  exact ⟨by with_unfolding_all rfl, by with_unfolding_all rfl⟩

/-- C4 counterexample: a component whose source tables are t1 and t9, with
only t1 among the exploded tables, gets in_explosion = true from the source
(membership of at least one table), while the claim's condition (every source
table among the exploded tables) is false. -/
theorem claim_C4_counterexample :
    in_explosion_tables ["t1", "t9"] ["t1"] = true ∧
    ¬ (∀ t ∈ (["t1", "t9"] : List String), t ∈ (["t1"] : List String)) := by
  decide

/-- C4 amended: the derived in_explosion flag is true if and only if at
least one of the component's source tables is among the tables being
exploded; and every factoid with at least one component none of whose
source tables is among those tables is demoted to row type reported_value
with its calculations set to empty. -/
theorem claim_C4_in_explosion :
    (∀ (s ts : List String), in_explosion_tables s ts = true ↔ ∃ t ∈ s, t ∈ ts) ∧
    (∀ (tns : List String) (meta : List MetaRow) (row : MetaRow), row ∈ meta →
      (∃ c ∈ row.calculations, in_explosion_tables c.source_tables tns = false) →
      ∃ row' ∈ redefine_calculations_with_components_out_of_explosion tns meta,
        row'.table_name = row.table_name ∧ row'.xbrl_factoid = row.xbrl_factoid ∧
        row'.calculations = [] ∧ row'.row_type_xbrl = "reported_value") := by
  constructor
  · intro s ts
    simp [in_explosion_tables]
  · intro tns meta row hrow hc
    obtain ⟨c, hcmem, hcflag⟩ := hc
    have hbad : row.xbrl_factoid ∈ not_in_explosion_xbrl_factoids tns meta := by
      unfold not_in_explosion_xbrl_factoids
      apply List.mem_map.mpr
      refine ⟨(row.xbrl_factoid, c), ?_, rfl⟩
      apply List.mem_filter.mpr
      refine ⟨?_, by simpa using hcflag⟩
      unfold calc_components
      exact List.mem_flatMap.mpr ⟨row, hrow, List.mem_map.mpr ⟨c, hcmem, rfl⟩⟩
    refine ⟨if row.xbrl_factoid ∈ not_in_explosion_xbrl_factoids tns meta then
        { row with calculations := [], row_type_xbrl := "reported_value" }
      else row, ?_, ?_⟩
    · unfold redefine_calculations_with_components_out_of_explosion
      exact List.mem_map_of_mem _ hrow
    · rw [if_pos hbad]
      exact ⟨rfl, rfl, rfl, rfl⟩

/-- A one-row metadata input whose single calculation component has its only
source table outside the explosion. -/
def metaC4 : List MetaRow :=
  [⟨"t1", "parent", "parent", [⟨"comp", 1, ["t9"]⟩], "calculated_value", false⟩]

/-- Witness for C4 amended at concrete inputs: the flag equivalence at the
two-table component, and the demotion of the metaC4 parent row. -/
theorem claim_C4_in_explosion_witness :
    (in_explosion_tables ["t1", "t9"] ["t1"] = true ↔
      ∃ t ∈ (["t1", "t9"] : List String), t ∈ (["t1"] : List String)) ∧
    ∃ row' ∈ redefine_calculations_with_components_out_of_explosion ["t1"] metaC4,
      row'.table_name = "t1" ∧ row'.xbrl_factoid = "parent" ∧
      row'.calculations = [] ∧ row'.row_type_xbrl = "reported_value" :=
  ⟨claim_C4_in_explosion.1 ["t1", "t9"] ["t1"],
   claim_C4_in_explosion.2 ["t1"] metaC4
     ⟨"t1", "parent", "parent", [⟨"comp", 1, ["t9"]⟩], "calculated_value", false⟩
     (by simp [metaC4])
     ⟨⟨"comp", 1, ["t9"]⟩, by simp, by decide⟩⟩

/-- C6: when the off ratio is within tolerance, reconciliation succeeds and
appends exactly one correction row per off row; each correction's value is
the reported value minus the calculated amount (null reported treated as 0,
though off rows always carry both values), its factoid gains the
_correction suffix, its row type is correction, and reported equals
calculated plus the correction value exactly. Rows that are not off
contribute no correction. -/
theorem claim_C6_correction_law (rows : List CalcRow) (tol : ℚ)
    (hd : calculated_values_count rows ≠ 0)
    (ht : off_fraction rows ≤ tol) :
    reconcile_intertable_calculations rows tol
      = Except.ok (rows ++ (rows.filter is_off).map mk_correction) ∧
    ∀ r ∈ rows, is_off r = true →
      ∃ v c, r.value = some v ∧ r.calculated_amount = some c ∧
        (mk_correction r).value = some (v - c) ∧
        (mk_correction r).xbrl_factoid = r.xbrl_factoid ++ "_correction" ∧
        (mk_correction r).row_type_xbrl = "correction" ∧
        v = c + (v - c) := by
  constructor
  · have hnotgt : ¬ (off_fraction rows > tol) := not_lt.mpr ht
    by_cases h0 : off_fraction rows > 0
    · simp only [reconcile_intertable_calculations, if_neg hd, if_neg hnotgt, if_pos h0]
    · have hb : ((calculated_values_count rows : ℚ)) ≠ 0 := by exact_mod_cast hd
      have hge : 0 ≤ off_fraction rows := by
        unfold off_fraction
        exact div_nonneg (Nat.cast_nonneg _) (Nat.cast_nonneg _)
      have hz : off_fraction rows = 0 := le_antisymm (not_lt.mp h0) hge
      unfold off_fraction at hz
      have hoff : rows.filter is_off = [] := by
        rcases div_eq_zero_iff.mp hz with hnum | hden
        · exact List.length_eq_zero.mp (by exact_mod_cast hnum)
        · exact absurd hden hb
      simp only [reconcile_intertable_calculations, if_neg hd, if_neg hnotgt,
        if_neg h0, hoff, List.map_nil, List.append_nil]
  · intro r hr hoffr
    rcases hv : r.value with _ | v <;> rcases hc : r.calculated_amount with _ | c
    · simp [is_off, hv, hc] at hoffr
    · simp [is_off, hv, hc] at hoffr
    · simp [is_off, hv, hc] at hoffr
    · refine ⟨v, c, rfl, rfl, ?_, ?_, ?_, by ring⟩
      · simp [mk_correction, hv, hc]
      · simp [mk_correction]
      · simp [mk_correction]

/-- Witness for C6 at a single off row (reported 100, calculated 97) with
tolerance 1: reconciliation appends the correction and its value is 3. -/
theorem claim_C6_correction_law_witness :
    calculated_values_count [rowOff] ≠ 0 ∧ off_fraction [rowOff] ≤ 1 ∧
    reconcile_intertable_calculations [rowOff] 1
      = Except.ok ([rowOff] ++ ([rowOff].filter is_off).map mk_correction) ∧
    (mk_correction rowOff).value = some 3 ∧
    (100 : ℚ) = 97 + 3 :=
  ⟨by with_unfolding_all decide, by with_unfolding_all decide,
   (claim_C6_correction_law [rowOff] 1 (by with_unfolding_all decide)
     (by with_unfolding_all decide)).1,
   by with_unfolding_all rfl, by norm_num⟩

/-- C7 counterexample: on rowsC7 the claim's ratio (off rows over rows with
a non-null calculated value) is 1/25, within the 5 percent tolerance, so by
the claim reconciliation should not raise; but the source divides by the
count of rows with non-null abs_diff (both values present), giving 1/10,
and raises. -/
theorem claim_C7_counterexample :
    spec_off_fraction rowsC7 ≤ 5 / 100 ∧
    reconcile_intertable_calculations rowsC7 (5 / 100)
      = Except.error (ReconcileError.tolerance_exceeded (1 / 10) (5 / 100)) := by
  exact ⟨by with_unfolding_all decide, by with_unfolding_all rfl⟩

/-- C7 amended: with the ratio computed as off rows over rows with non-null
abs_diff (both a reported and a calculated value present), reconciliation
raises an error carrying the observed ratio and the tolerance exactly when
the ratio exceeds the tolerance, and succeeds otherwise. -/
theorem claim_C7_tolerance_violation (rows : List CalcRow) (tol : ℚ)
    (hd : calculated_values_count rows ≠ 0) :
    (off_fraction rows > tol →
      reconcile_intertable_calculations rows tol
        = Except.error (ReconcileError.tolerance_exceeded (off_fraction rows) tol)) ∧
    (off_fraction rows ≤ tol →
      ∃ out, reconcile_intertable_calculations rows tol = Except.ok out) := by
  constructor
  · intro hgt
    simp only [reconcile_intertable_calculations, if_neg hd, if_pos hgt]
  · intro hle
    have hnotgt : ¬ (off_fraction rows > tol) := not_lt.mpr hle
    by_cases h0 : off_fraction rows > 0
    · refine ⟨rows ++ (rows.filter is_off).map mk_correction, ?_⟩
      simp only [reconcile_intertable_calculations, if_neg hd, if_neg hnotgt, if_pos h0]
    · refine ⟨rows, ?_⟩
      simp only [reconcile_intertable_calculations, if_neg hd, if_neg hnotgt, if_neg h0]

/-- Witness for C7 amended: rowsC7 exceeds the 5 percent tolerance and the
raised error carries the observed ratio and the tolerance; rowsC6 is within
tolerance and succeeds. -/
theorem claim_C7_tolerance_violation_witness :
    (reconcile_intertable_calculations rowsC7 (5 / 100)
      = Except.error (ReconcileError.tolerance_exceeded (off_fraction rowsC7) (5 / 100))) ∧
    ∃ out, reconcile_intertable_calculations rowsC6 (5 / 100) = Except.ok out :=
  ⟨(claim_C7_tolerance_violation rowsC7 (5 / 100)
      (by with_unfolding_all decide)).1 (by with_unfolding_all decide),
   (claim_C7_tolerance_violation rowsC6 (5 / 100)
      (by with_unfolding_all decide)).2 (by with_unfolding_all decide)⟩

/-- C9: when the distinct value-column names across the group do not number
exactly one, value_col raises; when exactly one distinct name exists it is
returned. -/
theorem claim_C9_value_col (value_cols : List String) :
    (value_cols.dedup.length ≠ 1 →
      ∃ msg, value_col value_cols = Except.error msg) ∧
    (∀ c, value_cols.dedup = [c] → value_col value_cols = Except.ok c) := by
  constructor
  · intro hne
    unfold value_col
    rcases hd : value_cols.dedup with _ | ⟨c, tl⟩
    · exact ⟨_, rfl⟩
    · rcases tl with _ | ⟨d, tl2⟩
      · exact absurd (by rw [hd]; rfl) hne
      · exact ⟨_, rfl⟩
  · intro c hc
    unfold value_col
    rw [hc]

/-- Witness for C9: two distinct column names raise, a duplicated single
name is returned. -/
theorem claim_C9_value_col_witness :
    (∃ msg, value_col ["col_a", "col_b"] = Except.error msg) ∧
    value_col ["col_a", "col_a"] = Except.ok "col_a" :=
  ⟨(claim_C9_value_col ["col_a", "col_b"]).1 (by decide),
   (claim_C9_value_col ["col_a", "col_a"]).2 "col_a" (by decide)⟩

/-- C10: any seed absent from the exploded metadata index makes validation
fail with an error naming the bad seeds (all of which are indeed absent from
the index), and this happens at model construction, before any digraph
property is computed; with an empty seed list every node of the index is
used as a seed. -/
theorem claim_C10_seed_validation (index seeds : List NodeId) :
    (∀ s ∈ seeds, s ∉ index →
      ∃ bad, validate_seeds index seeds = Except.error bad ∧ s ∈ bad ∧
        ∀ b ∈ bad, b ∉ index) ∧
    (seeds = [] → validate_seeds index seeds = Except.ok index) := by
  constructor
  · intro s hs hsni
    have hne : seeds ≠ [] := List.ne_nil_of_mem hs
    have hmem : s ∈ seeds.filter (fun x => decide (x ∉ index)) :=
      List.mem_filter.mpr ⟨hs, by simpa using hsni⟩
    refine ⟨seeds.filter (fun x => decide (x ∉ index)), ?_, hmem, ?_⟩
    · unfold validate_seeds seeds_not_empty seeds_within_bounds
      rw [if_neg hne, if_pos (List.ne_nil_of_mem hmem)]
    · intro b hb
      simpa using (List.mem_filter.mp hb).2
  · intro hseeds
    subst hseeds
    unfold validate_seeds seeds_not_empty seeds_within_bounds
    simp

/-- Witness for C10: a seed missing from a one-node index is reported as a
bad seed, and the empty seed list resolves to the whole index. -/
theorem claim_C10_seed_validation_witness :
    (∃ bad, validate_seeds [⟨"t", "x"⟩] [⟨"t", "y"⟩] = Except.error bad ∧
      (⟨"t", "y"⟩ : NodeId) ∈ bad ∧ ∀ b ∈ bad, b ∉ ([⟨"t", "x"⟩] : List NodeId)) ∧
    validate_seeds [⟨"t", "x"⟩] [] = Except.ok [⟨"t", "x"⟩] :=
  ⟨(claim_C10_seed_validation [⟨"t", "x"⟩] [⟨"t", "y"⟩]).1 ⟨"t", "y"⟩
     (by decide) (by decide),
   (claim_C10_seed_validation [⟨"t", "x"⟩] []).2 rfl⟩

end Pudl
